import Mathlib

/-!
Verification of the LocalLLMContentGenerator adapter found in
src/packages/core/src/core/localLLMContentGenerator.ts.

The TypeScript class adapts a provider-neutral generate-content contract to
an OpenAI-compatible chat-completion API.  The definitions below are a
shallow embedding of its pure conversion logic: dynamic JS values are
modelled by explicit inductive types, absent JS fields by Option, thrown
exceptions by Except, and the JS builtins JSON.parse and JSON.stringify by
executable Lean functions over an explicit Json value type.  The HTTP
transport is abstracted away: generateContent is modelled as a function of
the wire response the server returns for the call.
-/

namespace LocalLLM

/-- JSON values as produced by the JS builtin JSON.parse.  Numbers keep the
raw source text of their literal, since the adapter only carries parsed
argument objects around and never computes with the numbers. -/
inductive Json where
  | null : Json
  | bool (b : Bool) : Json
  | num (raw : String) : Json
  | str (s : String) : Json
  | arr (elems : List Json) : Json
  | obj (members : List (String × Json)) : Json

/-- JSON insignificant whitespace, skipped between tokens by JSON.parse. -/
def skipWs : List Char → List Char
  | [] => []
  | c :: cs => if c = ' ' ∨ c = '\t' ∨ c = '\n' ∨ c = '\r' then skipWs cs else c :: cs

/-- Value of a hexadecimal digit, used for \u escapes in JSON strings. -/
def hexVal (c : Char) : Option Nat :=
  if '0' ≤ c ∧ c ≤ '9' then some (c.toNat - '0'.toNat)
  else if 'a' ≤ c ∧ c ≤ 'f' then some (c.toNat - 'a'.toNat + 10)
  else if 'A' ≤ c ∧ c ≤ 'F' then some (c.toNat - 'A'.toNat + 10)
  else none

/-- Body of a JSON string literal, after the opening quote: returns the
decoded string and the input remaining after the closing quote.  Escape
sequences follow the JSON grammar; fuel bounds the recursion. -/
def parseStringBody : Nat → String → List Char → Option (String × List Char)
  | 0, _, _ => none
  | _ + 1, _, [] => none
  | fuel + 1, acc, c :: cs =>
    if c = '"' then some (acc, cs)
    else if c = '\\' then
      match cs with
      | [] => none
      | e :: cs2 =>
        if e = '"' then parseStringBody fuel (acc.push '"') cs2
        else if e = '\\' then parseStringBody fuel (acc.push '\\') cs2
        else if e = '/' then parseStringBody fuel (acc.push '/') cs2
        else if e = 'b' then parseStringBody fuel (acc.push (Char.ofNat 8)) cs2
        else if e = 'f' then parseStringBody fuel (acc.push (Char.ofNat 12)) cs2
        else if e = 'n' then parseStringBody fuel (acc.push '\n') cs2
        else if e = 'r' then parseStringBody fuel (acc.push '\r') cs2
        else if e = 't' then parseStringBody fuel (acc.push '\t') cs2
        else if e = 'u' then
          match cs2 with
          | h1 :: h2 :: h3 :: h4 :: cs3 =>
            match hexVal h1, hexVal h2, hexVal h3, hexVal h4 with
            | some a, some b, some c2, some d =>
              parseStringBody fuel (acc.push (Char.ofNat (a * 4096 + b * 256 + c2 * 16 + d))) cs3
            | _, _, _, _ => none
          | _ => none
        else none
    else if c.toNat < 32 then none
    else parseStringBody fuel (acc.push c) cs

/-- Longest prefix of decimal digits together with the rest of the input. -/
def spanDigits : List Char → List Char × List Char
  | [] => ([], [])
  | c :: cs =>
    if c.isDigit then
      let (d, r) := spanDigits cs
      (c :: d, r)
    else ([], c :: cs)

/-- JSON number literal, validated against the JSON grammar and kept as raw
text. -/
def parseNumber (cs : List Char) : Option (Json × List Char) :=
  let (sgn, cs1) : String × List Char :=
    match cs with
    | '-' :: r => ("-", r)
    | _ => ("", cs)
  match cs1 with
  | [] => none
  | c :: r =>
    let intPart : Option (String × List Char) :=
      if c = '0' then some ("0", r)
      else if c.isDigit then
        let (ds, rest) := spanDigits r
        some (String.mk (c :: ds), rest)
      else none
    match intPart with
    | none => none
    | some (ip, cs2) =>
      let fracPart : Option (String × List Char) :=
        match cs2 with
        | '.' :: r2 =>
          let (ds, rest) := spanDigits r2
          if ds.isEmpty then none else some ("." ++ String.mk ds, rest)
        | _ => some ("", cs2)
      match fracPart with
      | none => none
      | some (fp, cs3) =>
        let expPart : Option (String × List Char) :=
          match cs3 with
          | e :: r3 =>
            if e = 'e' ∨ e = 'E' then
              let (es, r4) : String × List Char :=
                match r3 with
                | '+' :: r5 => ("+", r5)
                | '-' :: r5 => ("-", r5)
                | _ => ("", r3)
              let (ds, rest) := spanDigits r4
              if ds.isEmpty then none
              else some (String.singleton e ++ es ++ String.mk ds, rest)
            else some ("", cs3)
          | [] => some ("", cs3)
        match expPart with
        | none => none
        | some (ep, cs4) => some (Json.num (sgn ++ ip ++ fp ++ ep), cs4)

mutual

/-- Recursive-descent JSON value parser; fuel bounds the recursion depth. -/
def parseValue : Nat → List Char → Option (Json × List Char)
  | 0, _ => none
  | fuel + 1, cs =>
    match skipWs cs with
    | 'n' :: 'u' :: 'l' :: 'l' :: rest => some (Json.null, rest)
    | 't' :: 'r' :: 'u' :: 'e' :: rest => some (Json.bool true, rest)
    | 'f' :: 'a' :: 'l' :: 's' :: 'e' :: rest => some (Json.bool false, rest)
    | '"' :: rest =>
      match parseStringBody (rest.length + 1) "" rest with
      | some (s, r) => some (Json.str s, r)
      | none => none
    | '[' :: rest =>
      match skipWs rest with
      | ']' :: r => some (Json.arr [], r)
      | cs2 =>
        match parseElems fuel cs2 with
        | some (xs, r) => some (Json.arr xs, r)
        | none => none
    | '{' :: rest =>
      match skipWs rest with
      | '}' :: r => some (Json.obj [], r)
      | cs2 =>
        match parseMembers fuel cs2 with
        | some (ms, r) => some (Json.obj ms, r)
        | none => none
    | cs1 => parseNumber cs1

/-- Comma-separated JSON array elements up to the closing bracket. -/
def parseElems : Nat → List Char → Option (List Json × List Char)
  | 0, _ => none
  | fuel + 1, cs =>
    match parseValue fuel cs with
    | none => none
    | some (v, r) =>
      match skipWs r with
      | ',' :: r2 =>
        match parseElems fuel r2 with
        | some (xs, r3) => some (v :: xs, r3)
        | none => none
      | ']' :: r2 => some ([v], r2)
      | _ => none

/-- Comma-separated JSON object members up to the closing brace. -/
def parseMembers : Nat → List Char → Option (List (String × Json) × List Char)
  | 0, _ => none
  | fuel + 1, cs =>
    match skipWs cs with
    | '"' :: rest =>
      match parseStringBody (rest.length + 1) "" rest with
      | none => none
      | some (k, r) =>
        match skipWs r with
        | ':' :: r2 =>
          match parseValue fuel r2 with
          | none => none
          | some (v, r3) =>
            match skipWs r3 with
            | ',' :: r4 =>
              match parseMembers fuel r4 with
              | some (ms, r5) => some ((k, v) :: ms, r5)
              | none => none
            | '}' :: r4 => some ([(k, v)], r4)
            | _ => none
        | _ => none
    | _ => none

end

/-- Model of the JS builtin JSON.parse: returns none exactly when JS would
throw a SyntaxError.  Trailing non-whitespace input is rejected, as in JS. -/
def jsonParse (s : String) : Option Json :=
  match parseValue (s.length + 1) s.data with
  | some (v, rest) => if (skipWs rest).isEmpty then some v else none
  | none => none

/-- Hexadecimal digit character for an integer below 16. -/
def hexDigit (n : Nat) : Char :=
  if n < 10 then Char.ofNat ('0'.toNat + n) else Char.ofNat ('a'.toNat + n - 10)

/-- Escape of one character inside a JSON string literal, following the JS
builtin JSON.stringify. -/
def escapeJsonChar (c : Char) : String :=
  if c = '"' then "\\\""
  else if c = '\\' then "\\\\"
  else if c.toNat = 8 then "\\b"
  else if c.toNat = 12 then "\\f"
  else if c = '\n' then "\\n"
  else if c = '\r' then "\\r"
  else if c = '\t' then "\\t"
  else if c.toNat < 32 then
    "\\u00" ++ String.singleton (hexDigit (c.toNat / 16)) ++ String.singleton (hexDigit (c.toNat % 16))
  else String.singleton c

/-- Quoted, escaped JSON string literal for a string value. -/
def quoteJson (s : String) : String :=
  "\"" ++ String.join (s.data.map escapeJsonChar) ++ "\""

mutual

/-- Serialization of a Json value following the JS builtin JSON.stringify. -/
def jsonStringify : Json → String
  | Json.null => "null"
  | Json.bool true => "true"
  | Json.bool false => "false"
  | Json.num raw => raw
  | Json.str s => quoteJson s
  | Json.arr elems => "[" ++ String.intercalate "," (stringifyElems elems) ++ "]"
  | Json.obj members => "\x7b" ++ String.intercalate "," (stringifyMembers members) ++ "\x7d"

/-- Serializations of the elements of a JSON array. -/
def stringifyElems : List Json → List String
  | [] => []
  | v :: vs => jsonStringify v :: stringifyElems vs

/-- Serializations of the members of a JSON object. -/
def stringifyMembers : List (String × Json) → List String
  | [] => []
  | (k, v) :: ms => (quoteJson k ++ ":" ++ jsonStringify v) :: stringifyMembers ms

end

/-- Dynamic values fed to the private extractText method: a part, a list of
parts, a string, or an object carrying optional text and parts fields.
vOther stands for every other JS value the method can meet (null, undefined,
numbers, booleans), all of which extract to the empty string. -/
inductive PValue where
  | vStr (s : String) : PValue
  | vArr (xs : List PValue) : PValue
  | vObj (text : Option String) (parts : Option PValue) : PValue
  | vOther : PValue

/-- JS truthiness of a PValue: the empty string is falsy, arrays and objects
are truthy, and vOther models the falsy non-string primitives. -/
def pvTruthy : PValue → Bool
  | PValue.vStr s => !s.isEmpty
  | PValue.vArr _ => true
  | PValue.vObj _ _ => true
  | PValue.vOther => false

mutual

/-- Embedding of the private extractText method, lines 234 to 256 of the
source: a string returns itself; an array concatenates the recursively
extracted non-empty texts of its elements; an object returns its text field
when that field is truthy, otherwise recurses into a truthy parts field;
everything else yields the empty string. -/
def extractText : PValue → String
  | PValue.vStr s => s
  | PValue.vArr xs => String.join ((extractTextList xs).filter (fun t => !t.isEmpty))
  | PValue.vObj t p =>
    match t with
    | some s => if !s.isEmpty then s else extractTextParts p
    | none => extractTextParts p
  | PValue.vOther => ""

/-- The parts branch of extractText: the source reads
if input.parts then return this.extractText input.parts, so a falsy parts
value falls through to the final empty-string return. -/
def extractTextParts : Option PValue → String
  | some q => if pvTruthy q then extractText q else ""
  | none => ""

/-- Pointwise extraction over the elements of an array input. -/
def extractTextList : List PValue → List String
  | [] => []
  | x :: xs => extractText x :: extractTextList xs

end

/-- Extraction applied to a possibly absent value: the source passes
content.parts straight to extractText, and extractText of undefined is the
empty string. -/
def extractTextOpt : Option PValue → String
  | some p => extractText p
  | none => ""

/-- One element of the neutral contents: a bare string, an object carrying a
role together with optional parts, or any other value, which the conversion
loop ignores because it is neither a string nor an object with a role key. -/
inductive ContentItem where
  | str (s : String) : ContentItem
  | turn (role : String) (parts : Option PValue) : ContentItem
  | other : ContentItem

/-- The contents field of a request: either a single content or an array of
contents, mirroring the Array.isArray test in the source. -/
inductive ContentsU where
  | one (c : ContentItem) : ContentsU
  | many (cs : List ContentItem) : ContentsU

/-- JS truthiness of a content item: the empty string is falsy; objects,
arrays and role-carrying turns are truthy. -/
def itemTruthy : ContentItem → Bool
  | ContentItem.str s => !s.isEmpty
  | ContentItem.turn _ _ => true
  | ContentItem.other => true

/-- JS truthiness of the whole contents value: an array is always truthy,
a single content is as truthy as the item itself. -/
def contentsTruthy : ContentsU → Bool
  | ContentsU.one c => itemTruthy c
  | ContentsU.many _ => true

/-- Normalization from the source: Array.isArray(contents) ? contents :
[contents]. -/
def contentsList : ContentsU → List ContentItem
  | ContentsU.one c => [c]
  | ContentsU.many cs => cs

/-- Function parameter schema of a neutral function declaration; the source
only ever reads its properties and required members. -/
structure FunctionParametersSchema where
  properties : Option Json := none
  required : Option (List String) := none

/-- Neutral function declaration inside a tool. -/
structure FunctionDeclaration where
  name : String
  description : Option String := none
  parameters : Option FunctionParametersSchema := none

/-- Neutral tool: an optional list of function declarations. -/
structure Tool where
  functionDeclarations : Option (List FunctionDeclaration) := none

/-- Generation config of the neutral request.  Numeric sampling parameters
are modelled as exact rationals and integers since the adapter only
forwards or defaults them and never computes with them. -/
structure GenerationConfig where
  systemInstruction : Option PValue := none
  maxOutputTokens : Option Int := none
  temperature : Option Rat := none
  topP : Option Rat := none
  tools : Option (List Tool) := none

/-- Neutral generate-content request: the source only ever reads contents
and config. -/
structure GenerateContentParameters where
  contents : Option ContentsU := none
  config : Option GenerationConfig := none

/-- One chat message of the outgoing wire payload. -/
structure WireMessage where
  role : String
  content : String
deriving DecidableEq

/-- Outgoing OpenAI-compatible chat-completion payload.  The source builds
an object literal with exactly these six members; in particular it carries
no tools member. -/
structure WireRequest where
  model : String
  messages : List WireMessage
  max_tokens : Int
  temperature : Rat
  top_p : Rat
  stream : Bool
deriving DecidableEq

/-- JS defaulting with the or operator on an optional integer: both an
absent value and an explicit 0 are falsy and give the default. -/
def jsOrInt (x : Option Int) (d : Int) : Int :=
  match x with
  | some v => if v = 0 then d else v
  | none => d

/-- JS defaulting with the or operator on an optional rational: both an
absent value and an explicit 0 are falsy and give the default. -/
def jsOrRat (x : Option Rat) (d : Rat) : Rat :=
  match x with
  | some v => if v = 0 then d else v
  | none => d

/-- JS defaulting with the or operator on an optional string: both an
absent value and the empty string are falsy and give the default. -/
def jsOrStr (x : Option String) (d : String) : String :=
  match x with
  | some v => if v.isEmpty then d else v
  | none => d

/-- Conversion of one content item to an outgoing chat message, the body of
the for loop at lines 130 to 146 of the source: a bare string becomes a
user message unconditionally; an object with a role key has model mapped to
assistant and is pushed only when its extracted text is truthy; anything
else is skipped. -/
def itemToMessage : ContentItem → Option WireMessage
  | ContentItem.str s => some { role := "user", content := s }
  | ContentItem.turn role parts =>
    let mappedRole := if role = "model" then "assistant" else role
    let text := extractTextOpt parts
    if text.isEmpty then none
    else some { role := mappedRole, content := text }
  | ContentItem.other => none

/-- Embedding of the private convertToOpenAIFormat method, lines 116 to 157
of the source.  The model name is the field this.model of the class.  Note
that the returned payload ignores config.tools entirely: the source method
never calls convertToolsToOpenAIFormat. -/
def convertToOpenAIFormat (modelName : String) (request : GenerateContentParameters) : WireRequest :=
  let sysMessages : List WireMessage :=
    match request.config.bind (fun c => c.systemInstruction) with
    | some si =>
      if pvTruthy si then [{ role := "system", content := extractText si }] else []
    | none => []
  let contentMessages : List WireMessage :=
    match request.contents with
    | some cu => if contentsTruthy cu then (contentsList cu).filterMap itemToMessage else []
    | none => []
  { model := modelName
    messages := sysMessages ++ contentMessages
    max_tokens := jsOrInt (request.config.bind (fun c => c.maxOutputTokens)) 4096
    temperature := jsOrRat (request.config.bind (fun c => c.temperature)) (7 / 10)
    top_p := jsOrRat (request.config.bind (fun c => c.topP)) 1
    stream := false }

/-- JS truthiness of a Json value: null, false, the number zero and the
empty string are falsy; every array and object is truthy.  A number literal
denotes zero exactly when its mantissa carries no nonzero digit. -/
def jsTruthy : Json → Bool
  | Json.null => false
  | Json.bool b => b
  | Json.num raw =>
    (raw.takeWhile (fun c => c ≠ 'e' ∧ c ≠ 'E')).any (fun c => '1' ≤ c ∧ c ≤ '9')
  | Json.str s => !s.isEmpty
  | Json.arr _ => true
  | Json.obj _ => true

/-- Parameter schema of an outgoing wire function spec, always of type
object with properties and required defaulted when not copied. -/
structure OpenAIFunctionParameters where
  type : String
  properties : Json
  required : List String

/-- Outgoing wire function spec. -/
structure OpenAIFunctionSpec where
  name : String
  description : String
  parameters : OpenAIFunctionParameters

/-- Outgoing wire tool entry. -/
structure OpenAITool where
  type : String
  function : OpenAIFunctionSpec

/-- Conversion of one function declaration to a wire tool entry, the inner
loop body of convertToolsToOpenAIFormat, lines 263 to 287 of the source. -/
def convertFunctionDeclaration (func : FunctionDeclaration) : OpenAITool :=
  let props : Json :=
    match func.parameters.bind (fun p => p.properties) with
    | some p => if jsTruthy p then p else Json.obj []
    | none => Json.obj []
  let req : List String :=
    match func.parameters.bind (fun p => p.required) with
    | some r => r
    | none => []
  { type := "function"
    function :=
      { name := func.name
        description := jsOrStr func.description ("Execute " ++ func.name)
        parameters := { type := "object", properties := props, required := req } } }

/-- Embedding of the private convertToolsToOpenAIFormat method, lines 258
to 292 of the source.  The method is defined on the class but never called:
no caller feeds its output into the wire payload. -/
def convertToolsToOpenAIFormat (geminiTools : List Tool) : List OpenAITool :=
  (geminiTools.map (fun tool =>
    match tool.functionDeclarations with
    | some funcs => funcs.map convertFunctionDeclaration
    | none => [])).flatten

mutual

/-- Encoding of a PValue as a Json value for serialization by
JSON.stringify; absent optional fields are omitted, as JSON.stringify omits
undefined members, and the residual vOther values serialize as null. -/
def encodePV : PValue → Json
  | PValue.vStr s => Json.str s
  | PValue.vArr xs => Json.arr (encodePVList xs)
  | PValue.vObj t p =>
    Json.obj ((match t with
      | some s => [("text", Json.str s)]
      | none => []) ++
      (match p with
      | some q => [("parts", encodePV q)]
      | none => []))
  | PValue.vOther => Json.null

/-- Pointwise encoding of a list of PValues. -/
def encodePVList : List PValue → List Json
  | [] => []
  | x :: xs => encodePV x :: encodePVList xs

end

/-- Encoding of a content item as a Json value for serialization. -/
def encodeItem : ContentItem → Json
  | ContentItem.str s => Json.str s
  | ContentItem.turn role parts =>
    Json.obj ([("role", Json.str role)] ++
      (match parts with
      | some p => [("parts", encodePV p)]
      | none => []))
  | ContentItem.other => Json.null

/-- Encoding of the contents value as a Json value for serialization. -/
def encodeContents : ContentsU → Json
  | ContentsU.one c => encodeItem c
  | ContentsU.many cs => Json.arr (cs.map encodeItem)

/-- Neutral count-tokens request: the source only reads its contents. -/
structure CountTokensParameters where
  contents : Option ContentsU := none

/-- Neutral count-tokens response. -/
structure CountTokensResponse where
  totalTokens : Nat
deriving DecidableEq

/-- Embedding of countTokens, lines 101 to 109 of the source: serialize
contents with JSON.stringify, defaulting a falsy contents to the empty
string, and divide the character length by 4 rounding up. -/
def countTokens (request : CountTokensParameters) : CountTokensResponse :=
  let text : String :=
    jsonStringify (match request.contents with
      | some cu => if contentsTruthy cu then encodeContents cu else Json.str ""
      | none => Json.str "")
  { totalTokens := (text.length + 3) / 4 }

/-- Incoming wire function payload of a tool call. -/
structure WireFunction where
  name : Option String := none
  arguments : Option String := none

/-- Incoming wire tool call. -/
structure WireToolCall where
  id : Option String := none
  function : Option WireFunction := none

/-- Incoming wire chat message of the first choice.  The role member is
carried on the wire but never read by the adapter. -/
structure WireMessageIn where
  role : Option String := none
  content : Option String := none
  tool_calls : Option (List WireToolCall) := none

/-- Incoming wire choice. -/
structure WireChoice where
  message : Option WireMessageIn := none
  finish_reason : Option String := none

/-- Incoming wire usage block. -/
structure WireUsage where
  prompt_tokens : Option Nat := none
  completion_tokens : Option Nat := none
  total_tokens : Option Nat := none

/-- Incoming OpenAI-compatible chat-completion response. -/
structure WireResponse where
  choices : Option (List WireChoice) := none
  usage : Option WireUsage := none

/-- Errors thrown by convertFromOpenAIFormat: the explicit throw for a
missing first choice, and the SyntaxError JSON.parse raises on malformed
tool-call arguments. -/
inductive AdapterError where
  | noChoices : AdapterError
  | badToolArguments (raw : String) : AdapterError
deriving DecidableEq

/-- Parsed function call carried in the neutral response. -/
structure FunctionCall where
  name : Option String
  args : Json

/-- One part of a neutral response candidate: a text part or a function
call part. -/
inductive RespPart where
  | text (t : String) : RespPart
  | functionCall (fc : FunctionCall) : RespPart

/-- Content of a neutral response candidate. -/
structure RespContent where
  parts : List RespPart
  role : String

/-- Candidate of a neutral response. -/
structure Candidate where
  content : RespContent
  finishReason : String
  index : Nat

/-- Usage metadata of a neutral response. -/
structure UsageMetadata where
  promptTokenCount : Nat
  candidatesTokenCount : Nat
  totalTokenCount : Nat
deriving DecidableEq

/-- Neutral generate-content response.  The source also sets data,
executableCode and codeExecutionResult, always to undefined; these carry no
information and are omitted from the model. -/
structure GenerateContentResponse where
  candidates : List Candidate
  usageMetadata : UsageMetadata
  text : String
  functionCalls : List FunctionCall

/-- Model of the JS String.prototype.toUpperCase for the ASCII finish
reason strings the adapter meets: each character is mapped to upper
case. -/
def jsToUpperCase (s : String) : String :=
  String.mk (s.data.map Char.toUpper)

/-- First choice of the wire response: optional chaining on choices
followed by index 0. -/
def choiceHead (w : WireResponse) : Option WireChoice :=
  match w.choices with
  | some l => l.head?
  | none => none

/-- Text of the choice: choice.message and its content member with the or
default to the empty string. -/
def msgContent (c : WireChoice) : String :=
  jsOrStr (c.message.bind (fun m => m.content)) ""

/-- Finish reason of the choice with the or default to the string stop. -/
def finishReasonOf (c : WireChoice) : String :=
  jsOrStr c.finish_reason "stop"

/-- Tool calls of the choice: optional chaining with an absent list read as
empty, so the nonemptiness test in the source is a match on the list. -/
def toolCallsOf (c : WireChoice) : List WireToolCall :=
  (c.message.bind (fun m => m.tool_calls)).getD []

/-- Argument string handed to JSON.parse for the first tool call: the
source writes functionCall.function?.arguments with the or default to the
two-character object literal, so an absent or empty arguments string both
default. -/
def argStringOf (tc : WireToolCall) : String :=
  jsOrStr (tc.function.bind (fun f => f.arguments)) "\x7b\x7d"

/-- Name of the first tool call via optional chaining. -/
def toolCallName (tc : WireToolCall) : Option String :=
  tc.function.bind (fun f => f.name)

/-- Usage metadata mapping with each wire member defaulted to 0 when
absent. -/
def usageOf (w : WireResponse) : UsageMetadata :=
  { promptTokenCount := (w.usage.bind (fun u => u.prompt_tokens)).getD 0
    candidatesTokenCount := (w.usage.bind (fun u => u.completion_tokens)).getD 0
    totalTokenCount := (w.usage.bind (fun u => u.total_tokens)).getD 0 }

/-- Embedding of the private convertFromOpenAIFormat method, lines 159 to
232 of the source: fail without a first choice; on a nonempty tool_calls
list build the single candidate from the first call with finish reason
forced to STOP; otherwise build a plain text candidate with the uppercased
wire finish reason. -/
def convertFromOpenAIFormat (w : WireResponse) : Except AdapterError GenerateContentResponse :=
  match choiceHead w with
  | none => Except.error AdapterError.noChoices
  | some choice =>
    let text := msgContent choice
    let finishReason := finishReasonOf choice
    match toolCallsOf choice with
    | tc :: _ =>
      match jsonParse (argStringOf tc) with
      | none => Except.error (AdapterError.badToolArguments (argStringOf tc))
      | some args =>
        let fc : FunctionCall := { name := toolCallName tc, args := args }
        Except.ok
          { candidates :=
              [{ content :=
                   { parts :=
                       if text.isEmpty then [RespPart.functionCall fc]
                       else [RespPart.text text, RespPart.functionCall fc]
                     role := "model" }
                 finishReason := "STOP"
                 index := 0 }]
            usageMetadata := usageOf w
            text := text
            functionCalls := [fc] }
    | [] =>
      Except.ok
        { candidates :=
            [{ content := { parts := [RespPart.text text], role := "model" }
               finishReason := jsToUpperCase finishReason
               index := 0 }]
          usageMetadata := usageOf w
          text := text
          functionCalls := [] }

/-- Pure core of generateContent: the request is translated and posted by
the transport, and the wire response the server returns is translated back.
The wire argument stands for the parsed JSON body of a successful HTTP
response. -/
def generateContent (request : GenerateContentParameters) (wire : WireResponse) :
    Except AdapterError GenerateContentResponse :=
  convertFromOpenAIFormat wire

/-- Pure core of generateContentStream, lines 88 to 99 of the source: the
non-streaming call is awaited and its single result is yielded once by the
returned generator, modelled as a one-element list. -/
def generateContentStream (request : GenerateContentParameters) (wire : WireResponse) :
    Except AdapterError (List GenerateContentResponse) :=
  match generateContent request wire with
  | Except.ok r => Except.ok [r]
  | Except.error e => Except.error e

/-- Success flag of a conversion result: true on a returned response,
false on a thrown error. -/
def exceptOk {ε α : Type} : Except ε α → Bool
  | Except.ok _ => true
  | Except.error _ => false

/-- Transcription of the amended specification sentence on message
emission, written from the spec wording for comparison with the source
conversion: a bare string turn is emitted as a user message with the string
as content, unconditionally; a structured turn has model mapped to
assistant and is emitted only when the text extracted from its parts is
non-empty; any other element is dropped. -/
def specEmitMessage : ContentItem → Option WireMessage
  | ContentItem.str s => some { role := "user", content := s }
  | ContentItem.turn role parts =>
    if extractTextOpt parts = "" then none
    else some { role := if role = "model" then "assistant" else role, content := extractTextOpt parts }
  | ContentItem.other => none

/-- Wire tool call whose arguments member is present but is the empty
string, the input separating the or defaulting of the source from the
nullish defaulting written in the specification. -/
def emptyArgsCall : WireToolCall :=
  { function := some { name := some "foo", arguments := some "" } }

/-- Wire response whose only choice carries the empty-arguments tool
call. -/
def emptyArgsWire : WireResponse :=
  { choices := some [{ message := some { tool_calls := some [emptyArgsCall] } }] }

/-- Wire tool call with a well-formed JSON arguments object. -/
def toolCallEx : WireToolCall :=
  { function := some { name := some "foo", arguments := some "\x7b\"x\":1\x7d" } }

/-- Wire choice carrying text together with the well-formed tool call. -/
def toolChoiceEx : WireChoice :=
  { message := some { content := some "ok", tool_calls := some [toolCallEx] } }

/-- Wire response carrying the tool-call choice and a usage block. -/
def toolWireEx : WireResponse :=
  { choices := some [toolChoiceEx]
    usage := some { prompt_tokens := some 3, completion_tokens := some 4, total_tokens := some 7 } }

/-- Wire response with one choice carrying no message and a finish reason
of length. -/
def plainWire : WireResponse :=
  { choices := some [{ finish_reason := some "length" }] }

/-- Neutral response the adapter produces for plainWire. -/
def plainResp : GenerateContentResponse :=
  { candidates :=
      [{ content := { parts := [RespPart.text ""], role := "model" }
         finishReason := "LENGTH"
         index := 0 }]
    usageMetadata := { promptTokenCount := 0, candidatesTokenCount := 0, totalTokenCount := 0 }
    text := ""
    functionCalls := [] }

/-- Helper: the pointwise list extraction agrees with List.map. -/
theorem extractTextList_eq_map (xs : List PValue) : extractTextList xs = xs.map extractText := by
  induction xs with
  | nil => rfl
  | cons x xs ih => simp [extractTextList, ih]

/-- Helper: the truthiness test the source performs on the parts field is
redundant, since every falsy value extracts to the empty string. -/
theorem extractTextParts_eq_opt (p : Option PValue) : extractTextParts p = extractTextOpt p := by
  cases p with
  | none => rfl
  | some q =>
    cases q with
    | vStr s =>
      by_cases h : s.isEmpty
      · rw [String.isEmpty_iff] at h
        subst h
        rfl
      · simp [extractTextParts, extractTextOpt, pvTruthy, h]
    | vArr xs => rfl
    | vObj t sub => rfl
    | vOther => rfl

/-- Helper: the loop body of the source conversion agrees pointwise with
the transcribed emission rule. -/
theorem itemToMessage_eq_spec (c : ContentItem) : itemToMessage c = specEmitMessage c := by
  cases c with
  | str s => rfl
  | turn role parts =>
    simp only [itemToMessage, specEmitMessage, String.isEmpty_iff]
  | other => rfl

/-- Helper: parsing the two-character object literal succeeds with the
empty object. -/
theorem jsonParse_emptyObj : jsonParse "\x7b\x7d" = some (Json.obj []) := rfl

/-- Helper: a string distinct from the empty string has a false isEmpty
flag. -/
theorem isEmpty_false_of_ne (s : String) (h : s ≠ "") : s.isEmpty = false := by
  rw [← Bool.not_eq_true, String.isEmpty_iff]
  exact h

/-- C6 counterexample: the claim says countTokens of the bare string abcd
returns 1, but the serialized form of the string carries the surrounding
JSON quotes, has length 6, and yields 2. -/
theorem c6_counterexample :
    countTokens { contents := some (ContentsU.one (ContentItem.str "abcd")) } = { totalTokens := 2 }
    ∧ (2 : Nat) ≠ 1 :=
  ⟨rfl, by decide⟩

/-- C6 amended: countTokens returns the ceiling of the length of the
JSON-serialized contents divided by 4, where the serialization is the
JSON.stringify form including quotes and escapes; in particular the bare
string abcd serializes to 6 characters and yields 2 tokens, and abcdefgh
serializes to 10 characters and yields 3. -/
theorem c6_count_tokens_ceil (request : CountTokensParameters) :
    ((countTokens request).totalTokens
      = ((jsonStringify (match request.contents with
          | some cu => if contentsTruthy cu then encodeContents cu else Json.str ""
          | none => Json.str "")).length + 3) / 4)
    ∧ countTokens { contents := some (ContentsU.one (ContentItem.str "abcd")) } = { totalTokens := 2 }
    ∧ countTokens { contents := some (ContentsU.one (ContentItem.str "abcdefgh")) } = { totalTokens := 3 } :=
  ⟨rfl, rfl, rfl⟩

/-- C7 counterexample: the claim says an object input with a text field
returns that field even when the text field is the empty string, but the
source tests the text field for truthiness, so an empty text field falls
through to the parts field and the extraction returns hi, not the empty
string. -/
theorem c7_counterexample :
    extractText (PValue.vObj (some "") (some (PValue.vStr "hi"))) = "hi"
    ∧ ("hi" : String) ≠ "" :=
  ⟨rfl, by decide⟩

/-- C7 amended: extractText is total and pure by construction and satisfies,
in order: a string returns itself; a sequence returns the order-preserving
separator-free concatenation of the non-empty recursively extracted texts
of its elements; an object with a non-empty text field returns that field;
an object whose text field is empty or absent recurses into its parts field
when present; every other input returns the empty string. -/
theorem c7_extract_text_rules :
    (∀ s, extractText (PValue.vStr s) = s)
    ∧ (∀ xs, extractText (PValue.vArr xs)
        = String.join ((xs.map extractText).filter (fun t => !t.isEmpty)))
    ∧ (∀ s p, extractText (PValue.vObj (some s) p)
        = if s = "" then extractTextOpt p else s)
    ∧ (∀ p, extractText (PValue.vObj none p) = extractTextOpt p)
    ∧ extractText PValue.vOther = "" := by
  refine ⟨fun s => rfl, fun xs => ?_, fun s p => ?_, fun p => ?_, rfl⟩
  · rw [extractText, extractTextList_eq_map]
  · by_cases h : s = ""
    · subst h
      show extractTextParts p = if ("" : String) = "" then extractTextOpt p else ""
      rw [if_pos rfl, extractTextParts_eq_opt]
    · have hb : s.isEmpty = false := isEmpty_false_of_ne s h
      simp [extractText, hb, h]
  · rw [extractText, extractTextParts_eq_opt]

/-- Helper: joining the non-empty members of a two-element string list
splits over the two singleton lists. -/
theorem join_filter_pair (s t : String) :
    String.join (List.filter (fun u => !u.isEmpty) [s, t])
      = String.join (List.filter (fun u => !u.isEmpty) [s])
        ++ String.join (List.filter (fun u => !u.isEmpty) [t]) := by
  have e0 : (("" : String).isEmpty) = true := rfl
  by_cases hs : s = ""
  · subst hs
    by_cases ht : t = ""
    · subst ht
      rfl
    · have h1 : t.isEmpty = false := isEmpty_false_of_ne t ht
      simp [List.filter, e0, h1, String.join, String.empty_append]
  · have h1 : s.isEmpty = false := isEmpty_false_of_ne s hs
    by_cases ht : t = ""
    · subst ht
      simp [List.filter, e0, h1, String.join, String.append_empty, String.empty_append]
    · have h2 : t.isEmpty = false := isEmpty_false_of_ne t ht
      simp [List.filter, h1, h2, String.join, String.empty_append]

/-- C8: extractText is idempotent on flat strings and is a homomorphism
from two-element sequence concatenation to string concatenation. -/
theorem c8_idempotent_and_hom :
    (∀ s : String, extractText (PValue.vStr (extractText (PValue.vStr s)))
        = extractText (PValue.vStr s))
    ∧ (∀ a b : PValue, extractText (PValue.vArr [a, b])
        = extractText (PValue.vArr [a]) ++ extractText (PValue.vArr [b])) := by
  refine ⟨fun s => rfl, fun a b => ?_⟩
  simp only [extractText, extractTextList]
  exact join_filter_pair (extractText a) (extractText b)

/-- C2: the wire payload produced by convertToOpenAIFormat is the same
whatever config.tools holds, because the method never reads tools and never
calls convertToolsToOpenAIFormat; the tool-mapping method itself does build
the wire function spec the claim describes, as the second conjunct shows on
the failing input, but its output reaches no payload. -/
theorem c2_tools_never_reach_payload :
    (∀ (modelName : String) (contents : Option ContentsU) (cfg : GenerationConfig)
        (tools : Option (List Tool)),
      convertToOpenAIFormat modelName { contents := contents, config := some { cfg with tools := tools } }
        = convertToOpenAIFormat modelName { contents := contents, config := some { cfg with tools := none } })
    ∧ convertToolsToOpenAIFormat [{ functionDeclarations := some [{ name := "foo" }] }]
        = [{ type := "function"
             function :=
               { name := "foo"
                 description := "Execute foo"
                 parameters := { type := "object", properties := Json.obj [], required := [] } } }] :=
  ⟨fun _ _ _ _ => rfl, rfl⟩

/-- C4 counterexample: the claim says an explicitly supplied temperature of
0 is forwarded as 0, but the source defaults with the or operator, for
which 0 is falsy, so the payload carries the default 0.7 instead. -/
theorem c4_counterexample :
    (convertToOpenAIFormat "m" { config := some { temperature := some 0 } }).temperature = 7 / 10
    ∧ ((7 : Rat) / 10 ≠ 0) :=
  ⟨rfl, by norm_num⟩

/-- C4 amended: the sampling parameters default with JS or semantics, so
the default applies both when the field is absent and when it is an
explicit 0; stream is false in every payload. -/
theorem c4_sampling_defaults (modelName : String) (request : GenerateContentParameters) :
    ((convertToOpenAIFormat modelName request).max_tokens
      = (match request.config.bind (fun c => c.maxOutputTokens) with
         | some v => if v = 0 then 4096 else v
         | none => 4096))
    ∧ ((convertToOpenAIFormat modelName request).temperature
      = (match request.config.bind (fun c => c.temperature) with
         | some v => if v = 0 then 7 / 10 else v
         | none => 7 / 10))
    ∧ ((convertToOpenAIFormat modelName request).top_p
      = (match request.config.bind (fun c => c.topP) with
         | some v => if v = 0 then 1 else v
         | none => 1))
    ∧ (convertToOpenAIFormat modelName request).stream = false :=
  ⟨rfl, rfl, rfl, rfl⟩

/-- C5 counterexample: the claim says no turn is ever forwarded as a
message with empty content, in particular not a bare empty-string turn, but
a bare empty string inside a contents array is pushed unconditionally as a
user message with empty content. -/
theorem c5_counterexample :
    (convertToOpenAIFormat "m" { contents := some (ContentsU.many [ContentItem.str ""]) }).messages
      = [{ role := "user", content := "" }] :=
  rfl

/-- C5 amended: inside a contents array a bare string turn is always
emitted as a user message, even when the string is empty; a structured turn
has model mapped to assistant and is emitted only when its extracted text
is non-empty; other elements are dropped; and a single bare empty string as
the whole contents is falsy and produces no message at all. -/
theorem c5_message_emission (modelName : String) (items : List ContentItem)
    (cfg : Option GenerationConfig) :
    ((convertToOpenAIFormat modelName { contents := some (ContentsU.many items), config := cfg }).messages
      = (convertToOpenAIFormat modelName { contents := none, config := cfg }).messages
        ++ items.filterMap specEmitMessage)
    ∧ ((convertToOpenAIFormat modelName { contents := some (ContentsU.one (ContentItem.str "")), config := cfg }).messages
      = (convertToOpenAIFormat modelName { contents := none, config := cfg }).messages) := by
  have hf : itemToMessage = specEmitMessage := funext itemToMessage_eq_spec
  constructor
  · simp [convertToOpenAIFormat, contentsTruthy, contentsList, hf]
  · have e0 : (("" : String).isEmpty) = true := rfl
    simp [convertToOpenAIFormat, contentsTruthy, itemTruthy, e0]

/-- C1 counterexample: the claim computes args as JSON.parse applied to the
nullish-coalesced arguments, which on the explicitly empty arguments string
would be JSON.parse of the empty string and fail, but the source defaults
with the or operator, for which the empty string is falsy, so the
conversion succeeds and the parsed args are the empty object. -/
theorem c1_counterexample :
    convertFromOpenAIFormat emptyArgsWire = Except.ok
      { candidates :=
          [{ content :=
               { parts := [RespPart.functionCall { name := some "foo", args := Json.obj [] }]
                 role := "model" }
             finishReason := "STOP"
             index := 0 }]
        usageMetadata := { promptTokenCount := 0, candidatesTokenCount := 0, totalTokenCount := 0 }
        text := ""
        functionCalls := [{ name := some "foo", args := Json.obj [] }] }
    ∧ jsonParse "" = none :=
  ⟨rfl, rfl⟩

/-- C1 amended: for a wire response with a first choice whose tool_calls
list is non-empty, and whose first call has an arguments string whose or
default (absent or empty both give the two-character object literal) parses
successfully, the conversion returns the single candidate built from only
the first tool call: a text part exactly when the extracted text is
non-empty followed by the function-call part, role model, finish reason the
literal STOP regardless of the wire finish reason, and functionCalls
carrying exactly the one parsed call. -/
theorem c1_first_tool_call_only (w : WireResponse) (choice : WireChoice)
    (tc : WireToolCall) (rest : List WireToolCall) (args : Json)
    (hChoice : choiceHead w = some choice)
    (hCalls : toolCallsOf choice = tc :: rest)
    (hParse : jsonParse (jsOrStr (tc.function.bind (fun f => f.arguments)) "\x7b\x7d") = some args) :
    convertFromOpenAIFormat w = Except.ok
      { candidates :=
          [{ content :=
               { parts :=
                   if (msgContent choice).isEmpty
                   then [RespPart.functionCall { name := toolCallName tc, args := args }]
                   else [RespPart.text (msgContent choice),
                     RespPart.functionCall { name := toolCallName tc, args := args }]
                 role := "model" }
             finishReason := "STOP"
             index := 0 }]
        usageMetadata := usageOf w
        text := msgContent choice
        functionCalls := [{ name := toolCallName tc, args := args }] } := by
  simp only [convertFromOpenAIFormat, hChoice, hCalls, argStringOf, hParse]

/-- C1 witness: the amended theorem applied to a concrete wire response
with text ok and one tool call foo carrying a one-member JSON object. -/
theorem c1_witness :
    convertFromOpenAIFormat toolWireEx = Except.ok
      { candidates :=
          [{ content :=
               { parts := [RespPart.text "ok",
                   RespPart.functionCall { name := some "foo", args := Json.obj [("x", Json.num "1")] }]
                 role := "model" }
             finishReason := "STOP"
             index := 0 }]
        usageMetadata := { promptTokenCount := 3, candidatesTokenCount := 4, totalTokenCount := 7 }
        text := "ok"
        functionCalls := [{ name := some "foo", args := Json.obj [("x", Json.num "1")] }] } :=
  c1_first_tool_call_only toolWireEx toolChoiceEx toolCallEx []
    (Json.obj [("x", Json.num "1")]) rfl rfl rfl

/-- C3 counterexample: the claim says the conversion fails whenever the
first tool call carries an arguments string that is present but not valid
JSON; the explicitly empty arguments string is present and is not valid
JSON, yet the conversion succeeds, because the or default replaces the
falsy empty string with the two-character object literal before parsing. -/
theorem c3_counterexample :
    emptyArgsCall.function.bind (fun f => f.arguments) = some ""
    ∧ jsonParse "" = none
    ∧ exceptOk (convertFromOpenAIFormat emptyArgsWire) = true :=
  ⟨rfl, rfl, rfl⟩

/-- C3 amended: the conversion fails exactly when either the wire response
has no first choice, or the first tool call of a non-empty tool_calls list
has an arguments string that is present, non-empty, and not valid JSON; in
every other case it returns one complete neutral response, and
generateContent propagates the result of the conversion unchanged. -/
theorem c3_error_iff (w : WireResponse) :
    (exceptOk (convertFromOpenAIFormat w) = false ↔
      (choiceHead w = none ∨
        ∃ choice tc rest a, choiceHead w = some choice ∧ toolCallsOf choice = tc :: rest
          ∧ tc.function.bind (fun f => f.arguments) = some a ∧ a.isEmpty = false
          ∧ jsonParse a = none))
    ∧ (∀ request, generateContent request w = convertFromOpenAIFormat w) := by
  refine ⟨?_, fun request => rfl⟩
  cases hch : choiceHead w with
  | none =>
    have hko : exceptOk (convertFromOpenAIFormat w) = false := by
      simp [convertFromOpenAIFormat, hch, exceptOk]
    rw [hko]
    simp
  | some choice =>
    cases hcalls : toolCallsOf choice with
    | nil =>
      have hok : exceptOk (convertFromOpenAIFormat w) = true := by
        simp [convertFromOpenAIFormat, hch, hcalls, exceptOk]
      rw [hok]
      constructor
      · intro h
        cases h
      · rintro (h | ⟨c2, tc2, rest2, a2, h1, h2, h3, h4, h5⟩)
        · cases h
        · cases h1
          rw [hcalls] at h2
          cases h2
    | cons tc rest =>
      cases harg : tc.function.bind (fun f => f.arguments) with
      | none =>
        have hstr : argStringOf tc = "\x7b\x7d" := by
          simp [argStringOf, jsOrStr, harg]
        have hok : exceptOk (convertFromOpenAIFormat w) = true := by
          simp [convertFromOpenAIFormat, hch, hcalls, hstr, jsonParse_emptyObj, exceptOk]
        rw [hok]
        constructor
        · intro h
          cases h
        · rintro (h | ⟨c2, tc2, rest2, a2, h1, h2, h3, h4, h5⟩)
          · cases h
          · cases h1
            rw [hcalls] at h2
            cases h2
            rw [harg] at h3
            cases h3
      | some a =>
        cases hemp : a.isEmpty with
        | true =>
          have hstr : argStringOf tc = "\x7b\x7d" := by
            simp [argStringOf, jsOrStr, harg, hemp]
          have hok : exceptOk (convertFromOpenAIFormat w) = true := by
            simp [convertFromOpenAIFormat, hch, hcalls, hstr, jsonParse_emptyObj, exceptOk]
          rw [hok]
          constructor
          · intro h
            cases h
          · rintro (h | ⟨c2, tc2, rest2, a2, h1, h2, h3, h4, h5⟩)
            · cases h
            · cases h1
              rw [hcalls] at h2
              cases h2
              rw [harg] at h3
              cases h3
              rw [hemp] at h4
              cases h4
        | false =>
          have hstr : argStringOf tc = a := by
            simp [argStringOf, jsOrStr, harg, hemp]
          cases hp : jsonParse a with
          | none =>
            have hko : exceptOk (convertFromOpenAIFormat w) = false := by
              simp [convertFromOpenAIFormat, hch, hcalls, hstr, hp, exceptOk]
            rw [hko]
            constructor
            · intro _
              exact Or.inr ⟨choice, tc, rest, a, rfl, hcalls, harg, hemp, hp⟩
            · intro _
              rfl
          | some j =>
            have hok : exceptOk (convertFromOpenAIFormat w) = true := by
              simp [convertFromOpenAIFormat, hch, hcalls, hstr, hp, exceptOk]
            rw [hok]
            constructor
            · intro h
              cases h
            · rintro (h | ⟨c2, tc2, rest2, a2, h1, h2, h3, h4, h5⟩)
              · cases h
              · cases h1
                rw [hcalls] at h2
                cases h2
                rw [harg] at h3
                cases h3
                rw [hp] at h5
                cases h5

/-- C3 witness: the amended theorem applied to a wire response with an
empty choices list, whose conversion fails. -/
theorem c3_witness :
    exceptOk (convertFromOpenAIFormat { choices := some [] }) = false :=
  ((c3_error_iff { choices := some [] }).1).mpr (Or.inl rfl)

/-- C9: generateContentStream yields exactly one element, the full result
of the non-streaming call on the same wire response, and then terminates,
the stream being a one-element list. -/
theorem c9_stream_single_element (request : GenerateContentParameters) (wire : WireResponse)
    (r : GenerateContentResponse) (h : generateContent request wire = Except.ok r) :
    generateContentStream request wire = Except.ok [r] := by
  unfold generateContentStream
  rw [h]

/-- C9 witness: the theorem applied to the empty request and the plain
one-choice wire response. -/
theorem c9_witness :
    generateContentStream { } plainWire = Except.ok [plainResp] :=
  c9_stream_single_element { } plainWire plainResp rfl

/-- C10: every successfully returned neutral response has exactly one
candidate, of index 0 and content role the literal model regardless of any
role carried on the wire, and its usage metadata defaults each count to 0
when the corresponding wire usage member is absent. -/
theorem c10_candidate_invariants (w : WireResponse) (r : GenerateContentResponse)
    (h : convertFromOpenAIFormat w = Except.ok r) :
    r.candidates.length = 1
    ∧ (∀ c ∈ r.candidates, c.index = 0 ∧ c.content.role = "model")
    ∧ r.usageMetadata =
        { promptTokenCount := (w.usage.bind (fun u => u.prompt_tokens)).getD 0
          candidatesTokenCount := (w.usage.bind (fun u => u.completion_tokens)).getD 0
          totalTokenCount := (w.usage.bind (fun u => u.total_tokens)).getD 0 } := by
  cases hch : choiceHead w with
  | none =>
    have hko : convertFromOpenAIFormat w = Except.error AdapterError.noChoices := by
      simp [convertFromOpenAIFormat, hch]
    rw [hko] at h
    cases h
  | some choice =>
    cases hcalls : toolCallsOf choice with
    | nil =>
      have hval : convertFromOpenAIFormat w = Except.ok
          { candidates :=
              [{ content := { parts := [RespPart.text (msgContent choice)], role := "model" }
                 finishReason := jsToUpperCase (finishReasonOf choice)
                 index := 0 }]
            usageMetadata := usageOf w
            text := msgContent choice
            functionCalls := [] } := by
        simp [convertFromOpenAIFormat, hch, hcalls]
      rw [hval] at h
      injection h with h2
      subst h2
      refine ⟨rfl, ?_, rfl⟩
      intro c hc
      rw [List.mem_singleton] at hc
      subst hc
      exact ⟨rfl, rfl⟩
    | cons tc rest =>
      cases hp : jsonParse (argStringOf tc) with
      | none =>
        have hko : convertFromOpenAIFormat w
            = Except.error (AdapterError.badToolArguments (argStringOf tc)) := by
          simp [convertFromOpenAIFormat, hch, hcalls, hp]
        rw [hko] at h
        cases h
      | some args =>
        have hval : convertFromOpenAIFormat w = Except.ok
            { candidates :=
                [{ content :=
                     { parts :=
                         if (msgContent choice).isEmpty
                         then [RespPart.functionCall { name := toolCallName tc, args := args }]
                         else [RespPart.text (msgContent choice),
                           RespPart.functionCall { name := toolCallName tc, args := args }]
                       role := "model" }
                   finishReason := "STOP"
                   index := 0 }]
              usageMetadata := usageOf w
              text := msgContent choice
              functionCalls := [{ name := toolCallName tc, args := args }] } := by
          simp [convertFromOpenAIFormat, hch, hcalls, hp]
        rw [hval] at h
        injection h with h2
        subst h2
        refine ⟨rfl, ?_, rfl⟩
        intro c hc
        rw [List.mem_singleton] at hc
        subst hc
        exact ⟨rfl, rfl⟩

/-- C10 witness: the invariants instantiated at the plain one-choice wire
response and its response value. -/
theorem c10_witness :
    plainResp.candidates.length = 1
    ∧ (∀ c ∈ plainResp.candidates, c.index = 0 ∧ c.content.role = "model")
    ∧ plainResp.usageMetadata =
        { promptTokenCount := 0, candidatesTokenCount := 0, totalTokenCount := 0 } :=
  c10_candidate_invariants plainWire plainResp rfl

end LocalLLM
